import Mathlib

/-!
Verification of the insyte-io dashboard link-tracking core.

Shallow embedding of the link-resolution/attribution engine and the funnel
aggregation engine of `backend/app/routes/utm.py`, together with the data
model of `app/models/` (`Click`, `Call`, `Payment`, `VideoAnalytics`,
`VideoLink`).

Modelling conventions:
- Python `datetime` values are integers (seconds since the epoch); Python
  `date` values are integers (day index since the epoch); midnight of day
  `d` is `d * 86400`.
- `float` amounts (`Payment.amount`, `avg_view_duration`, ...) are embedded
  as rationals; the claims under study never depend on rounding of float
  arithmetic.
- A parsed URL (the result of `urllib.parse.urlparse`) is a record of its
  six components, with the query component already split into a list of
  decoded key/value pairs; `parse_qs` / `urlencode(..., doseq=True)` are
  modelled on that pair list.
- The database session is a record of five row lists; SQLAlchemy queries
  become list filters, `.first()` becomes `List.find?`, `.scalar() or d`
  becomes an explicit Python-truthiness fallback.
- `datetime.fromisoformat` is external library code; the deep-view entry
  point is parametrised by the parse function `String → Option DateTime`.
-/

namespace Insyte

/-- Python `datetime`, embedded as seconds since the epoch. -/
abbrev DateTime := Int

/-- Python `date`, embedded as a day index since the epoch. -/
abbrev Date := Int

/-- Seconds in one day. -/
def secPerDay : Int := 86400

/-- Midnight (start of day) of a calendar date, as a `DateTime`. -/
def dayStart (d : Date) : DateTime := d * secPerDay

/-- Calendar day of a `DateTime` (floor division, matching `strftime` day grouping). -/
def dayOf (ts : DateTime) : Date := Int.fdiv ts secPerDay

/-- Call statuses, from `backend/app/models/call.py` (`CallStatus`): the seven
exhaustive classification buckets. -/
inductive CallStatus
  | booked
  | pending
  | confirmed
  | completed
  | cancelled
  | no_show
  | rescheduled
deriving DecidableEq, Repr

/-- A parsed URL: the six components returned by `urllib.parse.urlparse`,
with the query string already split into decoded key/value pairs. -/
structure URLParts where
  scheme : String
  netloc : String
  path : String
  params : String
  query : List (String × String)
  fragment : String
deriving DecidableEq, Repr

/-- Modelled from the spec: `backend/app/models/video_link.py` is absent from
the snapshot. Fields `slug`, `title`, `destination_url`, `created_at` follow
spec section 3; the optional `utm_source` / `utm_medium` / `utm_campaign`
attributes are the per-link attributes that the redirect handler in
`backend/app/routes/utm.py` reads from the link record (`link.utm_source or
"youtube"`, etc.), nullable since the handler applies truthiness defaults. -/
structure VideoLink where
  id : Int
  slug : String
  title : String
  destination_url : URLParts
  utm_source : Option String
  utm_medium : Option String
  utm_campaign : Option String
  created_at : DateTime
deriving DecidableEq, Repr

/-- Click row, from `app/models/click.py`: `timestamp` is filled by the
store's clock (`server_default=func.now()`), never client-supplied. -/
structure Click where
  slug : String
  timestamp : DateTime
  ip_address : String
  referrer : Option String
deriving DecidableEq, Repr

/-- Call row, from `backend/app/models/call.py`. -/
structure Call where
  id : Int
  slug : String
  email : String
  status : CallStatus
  timestamp : DateTime
deriving DecidableEq, Repr

/-- Payment row, from `backend/app/models/payment.py`. -/
structure Payment where
  id : Int
  slug : String
  email : String
  amount : ℚ
  currency : String
  timestamp : DateTime
deriving DecidableEq, Repr

/-- VideoAnalytics row, from `app/models/video_analytics.py`. -/
structure VideoAnalytics where
  video_id : String
  slug : String
  views : Nat
  likes : Nat
  comments : Nat
  engagement_rate : ℚ
  avg_view_duration : ℚ
  last_updated : DateTime
deriving DecidableEq, Repr

/-- The entity store: one list of rows per table. -/
structure DB where
  links : List VideoLink
  clicks : List Click
  calls : List Call
  payments : List Payment
  analytics : List VideoAnalytics
deriving DecidableEq, Repr

/-- An HTTP error raised via `HTTPException(status_code, detail)`. -/
structure HTTPError where
  code : Nat
  detail : String
deriving DecidableEq, Repr

/-- Python `x or d` for an optional string `x` (both `None` and the empty
string are falsy). -/
def pyOrStr (x : Option String) (d : String) : String :=
  match x with
  | none => d
  | some s => if s = "" then d else s

/-- Python truthiness filter on an optional string: `if x:` succeeds exactly
when `x` is neither `None` nor empty. -/
def pyStrOpt (x : Option String) : Option String :=
  match x with
  | none => none
  | some s => if s = "" then none else some s

/-- Python `x or d` for an optional rational (SQL `SUM` returns `NULL` on an
empty set; `0` is also falsy). -/
def pyOrRat (x : Option ℚ) (d : ℚ) : ℚ :=
  match x with
  | none => d
  | some v => if v = 0 then d else v

/-- SQL `SUM` scalar: `NULL` (`none`) on an empty row set, the sum otherwise. -/
def sumScalar (l : List ℚ) : Option ℚ :=
  match l with
  | [] => none
  | _ => some l.sum

/-- Python `int()` on a rational: truncation toward zero. -/
def pyInt (q : ℚ) : Int :=
  if 0 ≤ q then q.floor else -((-q).floor)

/-! ### Query-string machinery

`urllib.parse.parse_qs` groups a decoded pair list into a multi-valued,
insertion-ordered map, silently dropping blank values
(`keep_blank_values` defaults to `False`); dict assignment overwrites a
key's value list; `urlencode(..., doseq=True)` flattens the map back. -/

/-- Grouping step of `parse_qs`: append value `v` under key `k`. -/
def addVal : List (String × List String) → String → String → List (String × List String)
  | [], k, v => [(k, [v])]
  | (k', vs) :: g, k, v =>
      if k' = k then (k', vs ++ [v]) :: g else (k', vs) :: addVal g k v

/-- `urllib.parse.parse_qs` on a decoded pair list: group values by key in
first-occurrence order, dropping pairs whose value is blank. -/
def parse_qs (q : List (String × String)) : List (String × List String) :=
  q.foldl (fun g kv => if kv.2 = "" then g else addVal g kv.1 kv.2) []

/-- Python dict assignment `params[k] = vs` on the grouped map: overwrite the
entry for `k` in place if present, insert at the end otherwise. -/
def setParam (g : List (String × List String)) (k : String) (vs : List String) :
    List (String × List String) :=
  if g.any (fun e => e.1 = k) then
    g.map (fun e => if e.1 = k then (k, vs) else e)
  else
    g ++ [(k, vs)]

/-- `urllib.parse.urlencode(params, doseq=True)`: flatten the grouped map
back into a pair list, in map order. -/
def urlencodePairs (g : List (String × List String)) : List (String × String) :=
  g.flatMap (fun e => e.2.map (fun v => (e.1, v)))

/-- The query-string rewrite performed by `redirect_link`
(`backend/app/routes/utm.py`): parse the destination query, overwrite
`utm_source`, `utm_medium`, `utm_content`, set `utm_campaign` only when a
campaign value is present, and re-encode. -/
def rewriteQuery (q : List (String × String)) (slug source medium : String)
    (campaign : Option String) : List (String × String) :=
  let g := parse_qs q
  let g := setParam g "utm_source" [source]
  let g := setParam g "utm_medium" [medium]
  let g := setParam g "utm_content" [slug]
  let g :=
    match campaign with
    | some c => setParam g "utm_campaign" [c]
    | none => g
  urlencodePairs g

/-- The redirect instruction returned by `redirect_link`: HTTP status and
rebuilt URL (`urlunparse` of the original components with the new query). -/
structure RedirectOut where
  status : Nat
  url : URLParts
deriving DecidableEq, Repr

/-- `GET /go/slug` (`redirect_link` in `backend/app/routes/utm.py`): resolve
the slug (404 if absent), append one Click row stamped with the server
clock and the request client address, rewrite the destination URL, and
return a 307 redirect. Returns the resulting store next to the response so
that the click log on each path is visible. The 404 detail is the source
f-string with the quote characters around the slug omitted. -/
def redirectLink (db : DB) (now : DateTime) (client_ip : String)
    (referer : Option String) (slug : String) : DB × Except HTTPError RedirectOut :=
  match db.links.find? (fun l => l.slug == slug) with
  | none =>
      (db, Except.error ⟨404, "Link with slug " ++ slug ++ " not found"⟩)
  | some link =>
      let click : Click :=
        { slug := slug, timestamp := now, ip_address := client_ip, referrer := referer }
      let db' := { db with clicks := db.clicks ++ [click] }
      let newQuery :=
        rewriteQuery link.destination_url.query slug
          (pyOrStr link.utm_source "youtube")
          (pyOrStr link.utm_medium "video")
          (pyStrOpt link.utm_campaign)
      (db', Except.ok
        { status := 307
          url := { link.destination_url with query := newQuery } })

/-! ### Funnel aggregation: `GET /api/links` (`get_all_links`) -/

/-- One entry of the `links` list returned by `get_all_links`. -/
structure LinkStats where
  id : Int
  slug : String
  title : String
  destination_url : URLParts
  clicks : Nat
  booked_calls : Nat
  deals_closed : Nat
  revenue : ℚ
  created_at : DateTime
deriving DecidableEq, Repr

/-- Conditional `query.filter(ts >= start_date)` step of `get_all_links`:
applied only when `start_date` is provided (the `date` coerces to its
midnight). -/
def applyStartFilter (sd : Option Date) (ts : α → DateTime) (rows : List α) : List α :=
  match sd with
  | none => rows
  | some d => rows.filter (fun r => decide (dayStart d ≤ ts r))

/-- Conditional `query.filter(ts < end_date + timedelta(days=1))` step of
`get_all_links`: one day is added to include the end date fully. -/
def applyEndFilter (ed : Option Date) (ts : α → DateTime) (rows : List α) : List α :=
  match ed with
  | none => rows
  | some d => rows.filter (fun r => decide (ts r < dayStart (d + 1)))

/-- Per-link statistics block computed inside the `for link in links` loop of
`get_all_links`: four per-table queries sharing the optional date filters,
with `scalar() or 0` / `scalar() or 0.0` fallbacks (the count scalars are
never `NULL`, so only the sum needs the truthiness fallback). -/
def linkStats (db : DB) (sd ed : Option Date) (link : VideoLink) : LinkStats :=
  let clicksRows :=
    applyEndFilter ed (fun c : Click => c.timestamp)
      (applyStartFilter sd (fun c : Click => c.timestamp)
        (db.clicks.filter (fun c => c.slug == link.slug)))
  let callsRows :=
    applyEndFilter ed (fun c : Call => c.timestamp)
      (applyStartFilter sd (fun c : Call => c.timestamp)
        (db.calls.filter (fun c => c.slug == link.slug && c.status == CallStatus.booked)))
  let dealsRows :=
    applyEndFilter ed (fun p : Payment => p.timestamp)
      (applyStartFilter sd (fun p : Payment => p.timestamp)
        (db.payments.filter (fun p => p.slug == link.slug)))
  { id := link.id
    slug := link.slug
    title := link.title
    destination_url := link.destination_url
    clicks := clicksRows.length
    booked_calls := callsRows.length
    deals_closed := dealsRows.length
    revenue := pyOrRat (sumScalar (dealsRows.map (fun p => p.amount))) 0
    created_at := link.created_at }

/-- Insertion step for the `order_by(desc(VideoLink.created_at))` ordering. -/
def insertByCreatedDesc (l : VideoLink) : List VideoLink → List VideoLink
  | [] => [l]
  | x :: xs =>
      if l.created_at ≤ x.created_at then x :: insertByCreatedDesc l xs
      else l :: x :: xs

/-- `order_by(desc(VideoLink.created_at))`: most recently created first. -/
def sortByCreatedDesc : List VideoLink → List VideoLink
  | [] => []
  | x :: xs => insertByCreatedDesc x (sortByCreatedDesc xs)

/-- Response of `get_all_links`: per-link statistics (most recent link
first) plus the echoed row count and date range. -/
structure AllLinksOut where
  links : List LinkStats
  count : Nat
  start_date : Option Date
  end_date : Option Date
deriving DecidableEq, Repr

/-- `GET /api/links` (`get_all_links` in `backend/app/routes/utm.py`). -/
def getAllLinks (db : DB) (sd ed : Option Date) : AllLinksOut :=
  let result := (sortByCreatedDesc db.links).map (linkStats db sd ed)
  { links := result
    count := result.length
    start_date := sd
    end_date := ed }

/-! ### Deep view: `GET /api/links/deep-view/slug` (`get_deep_view`) -/

/-- One element of the raw calls list in the deep-view response. -/
structure CallEntry where
  date : DateTime
  status : CallStatus
  email : String
  id : Int
deriving DecidableEq, Repr

/-- The `calls` block of the deep-view response: one bucket per status. -/
structure CallsOut where
  booked : Nat
  confirmed : Nat
  completed : Nat
  cancelled : Nat
  pending : Nat
  no_show : Nat
  rescheduled : Nat
  list : List CallEntry
deriving DecidableEq, Repr

/-- The `deals` block of the deep-view response. -/
structure DealsOut where
  closed : Nat
  revenue : ℚ
deriving DecidableEq, Repr

/-- The `video_data` block of the deep-view response (present only when a
VideoAnalytics snapshot was found). -/
structure VideoData where
  video_id : String
  views : Nat
  watch_time_seconds : Int
  likes : Nat
  comments : Nat
  duration_seconds : Int
  published_at : DateTime
  engagement_rate : ℚ
  leads_generated : Nat
  revenue : ℚ
deriving DecidableEq, Repr

/-- The deep-view response body. -/
structure DeepViewOut where
  title : String
  slug : String
  destination : URLParts
  created_at : DateTime
  views : Nat
  clicks : Nat
  clicks_data : List (Date × Nat)
  calls : CallsOut
  deals : DealsOut
  video_data : Option VideoData
deriving DecidableEq, Repr

/-- Click rows of the deep view: slug match, `timestamp >= start_date_dt`
and `timestamp <= end_date_dt` (both bounds inclusive). -/
def clicksRowsDV (db : DB) (slug : String) (s e : DateTime) : List Click :=
  db.clicks.filter
    (fun c => c.slug == slug && decide (s ≤ c.timestamp) && decide (c.timestamp ≤ e))

/-- Call rows of the deep view: slug match, inclusive bounds on both sides. -/
def callsRowsDV (db : DB) (slug : String) (s e : DateTime) : List Call :=
  db.calls.filter
    (fun c => c.slug == slug && decide (s ≤ c.timestamp) && decide (c.timestamp ≤ e))

/-- Payment rows of the deep view: slug match, inclusive bounds on both sides. -/
def dealsRowsDV (db : DB) (slug : String) (s e : DateTime) : List Payment :=
  db.payments.filter
    (fun p => p.slug == slug && decide (s ≤ p.timestamp) && decide (p.timestamp ≤ e))

/-- Snapshot lookup of the deep view: the first VideoAnalytics row with slug
match and `start_date_dt <= last_updated < end_date_dt` (end exclusive). -/
def analyticsFind (db : DB) (slug : String) (s e : DateTime) : Option VideoAnalytics :=
  db.analytics.find?
    (fun a => a.slug == slug && decide (s ≤ a.last_updated) && decide (a.last_updated < e))

/-- Daily click histogram: insertion-ordered day dict, then sorted ascending
by day (ISO date strings sort chronologically, so sorting the integer day
indices is equivalent). Sorted ascending-unique day list paired with
per-day counts. -/
def clicksHistogram (rows : List Click) : List (Date × Nat) :=
  let days := (rows.map (fun c => dayOf c.timestamp)).dedup.mergeSort (fun a b => a ≤ b)
  days.map (fun d => (d, (rows.filter (fun c => dayOf c.timestamp == d)).length))

/-- Status-bucket counters of the deep view: the `if/elif` chain over
`CallStatus` applied to every filtered call row, plus the raw list. -/
def mkCallsOut (rows : List Call) : CallsOut :=
  { booked := rows.countP (fun c => c.status == CallStatus.booked)
    confirmed := rows.countP (fun c => c.status == CallStatus.confirmed)
    completed := rows.countP (fun c => c.status == CallStatus.completed)
    cancelled := rows.countP (fun c => c.status == CallStatus.cancelled)
    pending := rows.countP (fun c => c.status == CallStatus.pending)
    no_show := rows.countP (fun c => c.status == CallStatus.no_show)
    rescheduled := rows.countP (fun c => c.status == CallStatus.rescheduled)
    list := rows.map (fun c => ⟨c.timestamp, c.status, c.email, c.id⟩) }

/-- The `video_data` block built when a snapshot exists: leads and revenue
are recomputed from Call / Payment rows with slug match and
`start_date_dt <= timestamp < end_date_dt` (end exclusive, unlike the rest
of the deep view), with `scalar() or 0` fallbacks. -/
def mkVideoData (db : DB) (slug : String) (s e : DateTime) (va : VideoAnalytics) : VideoData :=
  let video_leads :=
    (db.calls.filter
      (fun c => c.slug == slug && decide (s ≤ c.timestamp) && decide (c.timestamp < e))).length
  let video_revenue :=
    pyOrRat
      (sumScalar
        ((db.payments.filter
          (fun p => p.slug == slug && decide (s ≤ p.timestamp) && decide (p.timestamp < e))).map
            (fun p => p.amount))) 0
  { video_id := va.video_id
    views := va.views
    watch_time_seconds := pyInt (va.avg_view_duration * (va.views : ℚ))
    likes := va.likes
    comments := va.comments
    duration_seconds := pyInt va.avg_view_duration
    published_at := va.last_updated
    engagement_rate := va.engagement_rate
    leads_generated := video_leads
    revenue := video_revenue }

/-- Body of `get_deep_view` after date resolution: slug lookup (404 when
absent), then the click / call / payment / analytics aggregations over the
window `start_date_dt .. end_date_dt`. -/
def deepViewCore (db : DB) (slug : String) (s e : DateTime) :
    Except HTTPError DeepViewOut :=
  match db.links.find? (fun l => l.slug == slug) with
  | none => Except.error ⟨404, "Link not found"⟩
  | some link =>
      let clicksRows := clicksRowsDV db slug s e
      let total_clicks := clicksRows.length
      let callsRows := callsRowsDV db slug s e
      let dealsRows := dealsRowsDV db slug s e
      let va := analyticsFind db slug s e
      let video_data :=
        match va with
        | none => none
        | some va => some (mkVideoData db slug s e va)
      let snapshot_views :=
        match va with
        | none => 0
        | some va => va.views
      let total_views :=
        if snapshot_views = 0 then total_clicks * 2 else snapshot_views
      Except.ok
        { title := link.title
          slug := link.slug
          destination := link.destination_url
          created_at := link.created_at
          views := total_views
          clicks := total_clicks
          clicks_data := clicksHistogram clicksRows
          calls := mkCallsOut callsRows
          deals :=
            { closed := dealsRows.length
              revenue := (dealsRows.map (fun p => p.amount)).sum }
          video_data := video_data }

/-- `GET /api/links/deep-view/slug` (`get_deep_view` in
`backend/app/routes/utm.py`): resolve the optional date strings first
(`end_date` then `start_date`, each a 400 on parse failure; defaults are
`now` and thirty days before the end), then run the aggregation.
Parametrised by the external `datetime.fromisoformat` parse function. -/
def getDeepView (parse : String → Option DateTime) (now : DateTime) (db : DB)
    (slug : String) (start_date end_date : Option String) :
    Except HTTPError DeepViewOut :=
  let endParsed : Except HTTPError DateTime :=
    match end_date with
    | none => Except.ok now
    | some str =>
        match parse str with
        | none =>
            Except.error ⟨400, "Invalid end_date format. Use ISO format (YYYY-MM-DD)"⟩
        | some d => Except.ok d
  match endParsed with
  | Except.error err => Except.error err
  | Except.ok end_date_dt =>
      let startParsed : Except HTTPError DateTime :=
        match start_date with
        | none => Except.ok (end_date_dt - 30 * secPerDay)
        | some str =>
            match parse str with
            | none =>
                Except.error ⟨400, "Invalid start_date format. Use ISO format (YYYY-MM-DD)"⟩
            | some d => Except.ok d
      match startParsed with
      | Except.error err => Except.error err
      | Except.ok start_date_dt => deepViewCore db slug start_date_dt end_date_dt

/-! ### Lemmas on the query-string machinery -/

theorem mem_urlencodePairs {g : List (String × List String)} {kv : String × String} :
    kv ∈ urlencodePairs g ↔ ∃ vs, (kv.1, vs) ∈ g ∧ kv.2 ∈ vs := by
  obtain ⟨a, b⟩ := kv
  simp only [urlencodePairs, List.mem_flatMap, List.mem_map, Prod.mk.injEq]
  constructor
  · rintro ⟨⟨k', vs⟩, hmem, v', hv', rfl, rfl⟩
    exact ⟨vs, hmem, hv'⟩
  · rintro ⟨vs, hmem, hv⟩
    exact ⟨(a, vs), hmem, b, hv, rfl, rfl⟩

theorem mem_urlencodePairs_map {g : List (String × List String)}
    {f : String × List String → String × List String} {kv : String × String} :
    kv ∈ urlencodePairs (g.map f) ↔ ∃ e ∈ g, (f e).1 = kv.1 ∧ kv.2 ∈ (f e).2 := by
  rw [mem_urlencodePairs]
  constructor
  · rintro ⟨vs, hmem, hv⟩
    rw [List.mem_map] at hmem
    obtain ⟨e, he, hfe⟩ := hmem
    refine ⟨e, he, ?_, ?_⟩
    · rw [hfe]
    · rw [hfe]; exact hv
  · rintro ⟨e, he, hk, hv⟩
    refine ⟨(f e).2, ?_, hv⟩
    have heq : (kv.1, (f e).2) = f e := by rw [← hk]
    rw [heq]
    exact List.mem_map_of_mem f he

@[simp]
theorem urlencodePairs_nil : urlencodePairs [] = [] := rfl

@[simp]
theorem urlencodePairs_cons {e : String × List String} {g : List (String × List String)} :
    urlencodePairs (e :: g) = e.2.map (fun v => (e.1, v)) ++ urlencodePairs g := rfl

@[simp]
theorem mem_map_pair {k a b : String} {vs : List String} :
    (a, b) ∈ vs.map (fun v => (k, v)) ↔ a = k ∧ b ∈ vs := by
  rw [List.mem_map]
  constructor
  · rintro ⟨v', hv', heq⟩
    have h1 : k = a := congrArg Prod.fst heq
    have h2 : v' = b := congrArg Prod.snd heq
    subst h1
    subst h2
    exact ⟨rfl, hv'⟩
  · rintro ⟨rfl, hb⟩
    exact ⟨b, hb, rfl⟩

theorem mem_urlencodePairs_addVal {g : List (String × List String)} {k v : String}
    {kv : String × String} :
    kv ∈ urlencodePairs (addVal g k v) ↔ kv ∈ urlencodePairs g ∨ kv = (k, v) := by
  obtain ⟨a, b⟩ := kv
  induction g with
  | nil =>
      show (a, b) ∈ urlencodePairs [(k, [v])] ↔ _
      simp [Prod.ext_iff]
  | cons e g ih =>
      obtain ⟨k', vs⟩ := e
      show (a, b) ∈ urlencodePairs
          (if k' = k then (k', vs ++ [v]) :: g else (k', vs) :: addVal g k v) ↔ _
      by_cases h : k' = k
      · subst h
        rw [if_pos rfl]
        simp only [urlencodePairs_cons, List.mem_append, mem_map_pair, List.mem_singleton,
          Prod.mk.injEq]
        tauto
      · rw [if_neg h]
        simp only [urlencodePairs_cons, List.mem_append, mem_map_pair, Prod.mk.injEq] at ih ⊢
        tauto

theorem mem_urlencodePairs_parse_qs_foldl {q : List (String × String)}
    {g : List (String × List String)} {kv : String × String} :
    kv ∈ urlencodePairs
        (q.foldl (fun g kv => if kv.2 = "" then g else addVal g kv.1 kv.2) g) ↔
      kv ∈ urlencodePairs g ∨ (kv ∈ q ∧ kv.2 ≠ "") := by
  induction q generalizing g with
  | nil => simp
  | cons p q ih =>
      obtain ⟨pk, pv⟩ := p
      by_cases h : pv = ""
      · subst h
        simp only [List.foldl_cons, if_pos rfl, ih, List.mem_cons]
        constructor
        · rintro (hg | ⟨hq, hne⟩)
          · exact Or.inl hg
          · exact Or.inr ⟨Or.inr hq, hne⟩
        · rintro (hg | ⟨hq | hq, hne⟩)
          · exact Or.inl hg
          · rw [hq] at hne; simp at hne
          · exact Or.inr ⟨hq, hne⟩
      · simp only [List.foldl_cons, if_neg h, ih, mem_urlencodePairs_addVal, List.mem_cons]
        constructor
        · rintro ((hg | rfl) | ⟨hq, hne⟩)
          · exact Or.inl hg
          · exact Or.inr ⟨Or.inl rfl, h⟩
          · exact Or.inr ⟨Or.inr hq, hne⟩
        · rintro (hg | ⟨hq | hq, hne⟩)
          · exact Or.inl (Or.inl hg)
          · exact Or.inl (Or.inr hq)
          · exact Or.inr ⟨hq, hne⟩

theorem mem_urlencodePairs_parse_qs {q : List (String × String)} {kv : String × String} :
    kv ∈ urlencodePairs (parse_qs q) ↔ kv ∈ q ∧ kv.2 ≠ "" := by
  have h := @mem_urlencodePairs_parse_qs_foldl q [] kv
  simpa [parse_qs, urlencodePairs] using h

theorem mem_urlencodePairs_setParam {g : List (String × List String)} {k : String}
    {vs : List String} {kv : String × String} :
    kv ∈ urlencodePairs (setParam g k vs) ↔
      (kv ∈ urlencodePairs g ∧ kv.1 ≠ k) ∨ (kv.1 = k ∧ kv.2 ∈ vs) := by
  unfold setParam
  by_cases hany : g.any (fun e => e.1 = k)
  · rw [List.any_eq_true] at hany
    obtain ⟨w, hw, hwk⟩ := hany
    rw [decide_eq_true_iff] at hwk
    rw [if_pos (List.any_eq_true.mpr ⟨w, hw, decide_eq_true hwk⟩)]
    simp only [mem_urlencodePairs_map]
    constructor
    · rintro ⟨e, he, hk, hv⟩
      by_cases hek : e.1 = k
      · rw [if_pos hek] at hk hv
        exact Or.inr ⟨hk.symm, hv⟩
      · rw [if_neg hek] at hk hv
        refine Or.inl ⟨mem_urlencodePairs.mpr ⟨e.2, ?_, hv⟩, ?_⟩
        · have heq : (kv.1, e.2) = e := by rw [← hk]
          rw [heq]
          exact he
        · rw [← hk]; exact hek
    · rintro (⟨hmem, hne⟩ | ⟨hk, hv⟩)
      · obtain ⟨vs0, hmem0, hv0⟩ := mem_urlencodePairs.mp hmem
        refine ⟨(kv.1, vs0), hmem0, ?_, ?_⟩
        · rw [if_neg (show ¬((kv.1, vs0) : String × List String).1 = k from hne)]
        · rw [if_neg (show ¬((kv.1, vs0) : String × List String).1 = k from hne)]
          exact hv0
      · refine ⟨w, hw, ?_, ?_⟩
        · rw [if_pos hwk]; exact hk.symm
        · rw [if_pos hwk]; exact hv
  · rw [if_neg hany]
    have hnok : ∀ p : String × String, p ∈ urlencodePairs g → p.1 ≠ k := by
      intro p hp hcontra
      obtain ⟨pvs, hpmem, _⟩ := mem_urlencodePairs.mp hp
      exact hany (List.any_eq_true.mpr ⟨(p.1, pvs), hpmem, decide_eq_true hcontra⟩)
    simp only [urlencodePairs, List.flatMap_append, List.mem_append, List.flatMap_cons,
      List.flatMap_nil, List.append_nil, List.mem_map]
    constructor
    · rintro (hmem | ⟨v', hv', rfl⟩)
      · exact Or.inl ⟨hmem, hnok kv hmem⟩
      · exact Or.inr ⟨rfl, hv'⟩
    · rintro (⟨hmem, _⟩ | ⟨hk, hv⟩)
      · exact Or.inl hmem
      · refine Or.inr ⟨kv.2, hv, ?_⟩
        obtain ⟨a, b⟩ := kv
        simp only at hk
        rw [hk]


/-- Membership characterisation of the redirect query rewrite: the output
pairs are exactly the non-blank original pairs whose key is not overwritten,
plus the three overwritten `utm` pairs, plus the campaign pair when a
campaign value is present. -/
theorem mem_rewriteQuery {q : List (String × String)} {slug source medium : String}
    {campaign : Option String} {kv : String × String} :
    kv ∈ rewriteQuery q slug source medium campaign ↔
      (kv ∈ q ∧ kv.2 ≠ "" ∧ kv.1 ≠ "utm_source" ∧ kv.1 ≠ "utm_medium" ∧
        kv.1 ≠ "utm_content" ∧ (campaign = none ∨ kv.1 ≠ "utm_campaign")) ∨
      kv = ("utm_source", source) ∨ kv = ("utm_medium", medium) ∨
      kv = ("utm_content", slug) ∨
      (∃ c, campaign = some c ∧ kv = ("utm_campaign", c)) := by
  obtain ⟨a, b⟩ := kv
  cases campaign with
  | none =>
      simp only [rewriteQuery, mem_urlencodePairs_setParam, mem_urlencodePairs_parse_qs,
        List.mem_singleton, Prod.mk.injEq, ne_eq, reduceCtorEq, false_and, exists_false,
        or_false, false_or, true_or, eq_self_iff_true]
      constructor
      · rintro (⟨(⟨(⟨⟨hmem, hb0⟩, hs⟩ | ⟨ha, hb⟩), hm⟩ | ⟨ha, hb⟩), hc⟩ | ⟨ha, hb⟩)
        · exact Or.inl ⟨hmem, hb0, hs, hm, hc, trivial⟩
        · exact Or.inr (Or.inl ⟨ha, hb⟩)
        · exact Or.inr (Or.inr (Or.inl ⟨ha, hb⟩))
        · exact Or.inr (Or.inr (Or.inr ⟨ha, hb⟩))
      · rintro (⟨hmem, hb0, hs, hm, hc, -⟩ | ⟨rfl, rfl⟩ | ⟨rfl, rfl⟩ | ⟨rfl, rfl⟩)
        · exact Or.inl ⟨Or.inl ⟨Or.inl ⟨⟨hmem, hb0⟩, hs⟩, hm⟩, hc⟩
        · exact Or.inl ⟨Or.inl ⟨Or.inr ⟨rfl, rfl⟩, by decide⟩, by decide⟩
        · exact Or.inl ⟨Or.inr ⟨rfl, rfl⟩, by decide⟩
        · exact Or.inr ⟨rfl, rfl⟩
  | some c =>
      simp only [rewriteQuery, mem_urlencodePairs_setParam, mem_urlencodePairs_parse_qs,
        List.mem_singleton, Prod.mk.injEq, ne_eq, reduceCtorEq, false_or,
        Option.some.injEq, exists_eq_left']
      constructor
      · rintro (⟨(⟨(⟨(⟨⟨hmem, hb0⟩, hs⟩ | ⟨ha, hb⟩), hm⟩ | ⟨ha, hb⟩), hc⟩ | ⟨ha, hb⟩),
          hcc⟩ | ⟨ha, hb⟩)
        · exact Or.inl ⟨hmem, hb0, hs, hm, hc, hcc⟩
        · exact Or.inr (Or.inl ⟨ha, hb⟩)
        · exact Or.inr (Or.inr (Or.inl ⟨ha, hb⟩))
        · exact Or.inr (Or.inr (Or.inr (Or.inl ⟨ha, hb⟩)))
        · exact Or.inr (Or.inr (Or.inr (Or.inr ⟨ha, hb⟩)))
      · rintro (⟨hmem, hb0, hs, hm, hc, hcc⟩ | ⟨rfl, rfl⟩ | ⟨rfl, rfl⟩ | ⟨rfl, rfl⟩ |
          ⟨rfl, rfl⟩)
        · exact Or.inl ⟨Or.inl ⟨Or.inl ⟨Or.inl ⟨⟨hmem, hb0⟩, hs⟩, hm⟩, hc⟩, hcc⟩
        · exact Or.inl ⟨Or.inl ⟨Or.inl ⟨Or.inr ⟨rfl, rfl⟩, by decide⟩, by decide⟩, by decide⟩
        · exact Or.inl ⟨Or.inl ⟨Or.inr ⟨rfl, rfl⟩, by decide⟩, by decide⟩
        · exact Or.inl ⟨Or.inr ⟨rfl, rfl⟩, by decide⟩
        · exact Or.inr ⟨rfl, rfl⟩

/-- C4: the URL rewrite with fixed source `youtube`, fixed medium `video`
and absent campaign is idempotent up to key/value-set equality: applying it
to its own output yields the same set of query pairs as applying it once
(the reserved keys are overwritten, not appended). -/
theorem rewriteQuery_idempotent (q : List (String × String)) (slug : String) :
    (rewriteQuery (rewriteQuery q slug "youtube" "video" none) slug "youtube" "video"
        none).toFinset =
      (rewriteQuery q slug "youtube" "video" none).toFinset := by
  ext kv
  simp only [List.mem_toFinset, mem_rewriteQuery, ne_eq, reduceCtorEq, false_and,
    exists_false, or_false, true_or, and_true]
  constructor
  · rintro (⟨hE, hb0, hs, hm, hc⟩ | h)
    · rcases hE with ⟨hq, hb0', hs', hm', hc'⟩ | h'
      · exact Or.inl ⟨hq, hb0', hs', hm', hc'⟩
      · exact Or.inr h'
    · exact Or.inr h
  · rintro (⟨hq, hb0, hs, hm, hc⟩ | h)
    · exact Or.inl ⟨Or.inl ⟨hq, hb0, hs, hm, hc⟩, hb0, hs, hm, hc⟩
    · exact Or.inr h


/-! ### Lemmas on the funnel aggregation -/

/-- Start-of-window predicate of `get_all_links`: vacuous when no
`start_date` is given, `timestamp >= start_date` otherwise. -/
def inStartW (sd : Option Date) (ts : DateTime) : Bool :=
  match sd with
  | none => true
  | some d => decide (dayStart d ≤ ts)

/-- End-of-window predicate of `get_all_links`: vacuous when no `end_date`
is given, `timestamp < end_date + 1 day` otherwise. -/
def inEndW (ed : Option Date) (ts : DateTime) : Bool :=
  match ed with
  | none => true
  | some d => decide (ts < dayStart (d + 1))

/-- Combined window predicate of `get_all_links`. -/
def inWindow (sd ed : Option Date) (ts : DateTime) : Bool :=
  inStartW sd ts && inEndW ed ts

theorem applyFilters_eq_filter {α : Type} (sd ed : Option Date) (ts : α → DateTime)
    (rows : List α) :
    applyEndFilter ed ts (applyStartFilter sd ts rows) =
      rows.filter (fun r => inWindow sd ed (ts r)) := by
  cases sd <;> cases ed <;>
    simp [applyStartFilter, applyEndFilter, inWindow, inStartW, inEndW, List.filter_filter,
      Bool.and_comm]

theorem pyOrRat_sumScalar (l : List ℚ) : pyOrRat (sumScalar l) 0 = l.sum := by
  cases l with
  | nil => simp [sumScalar, pyOrRat]
  | cons x xs =>
      show (if (x :: xs).sum = 0 then 0 else (x :: xs).sum) = (x :: xs).sum
      by_cases h : (x :: xs).sum = 0
      · rw [if_pos h, h]
      · rw [if_neg h]

theorem linkStats_clicks (db : DB) (sd ed : Option Date) (link : VideoLink) :
    (linkStats db sd ed link).clicks =
      db.clicks.countP (fun c => (c.slug == link.slug) && inWindow sd ed c.timestamp) := by
  simp [linkStats, applyFilters_eq_filter, List.filter_filter, List.countP_eq_length_filter,
    Bool.and_comm]

theorem linkStats_booked_calls (db : DB) (sd ed : Option Date) (link : VideoLink) :
    (linkStats db sd ed link).booked_calls =
      db.calls.countP (fun c =>
        ((c.slug == link.slug) && (c.status == CallStatus.booked)) &&
          inWindow sd ed c.timestamp) := by
  simp [linkStats, applyFilters_eq_filter, List.filter_filter, List.countP_eq_length_filter,
    Bool.and_comm]

theorem linkStats_deals (db : DB) (sd ed : Option Date) (link : VideoLink) :
    (linkStats db sd ed link).deals_closed =
      db.payments.countP (fun p => (p.slug == link.slug) && inWindow sd ed p.timestamp) := by
  simp [linkStats, applyFilters_eq_filter, List.filter_filter, List.countP_eq_length_filter,
    Bool.and_comm]

theorem linkStats_revenue (db : DB) (sd ed : Option Date) (link : VideoLink) :
    (linkStats db sd ed link).revenue =
      ((db.payments.filter
          (fun p => (p.slug == link.slug) && inWindow sd ed p.timestamp)).map
        (fun p => p.amount)).sum := by
  simp only [linkStats, applyFilters_eq_filter, List.filter_filter]
  rw [pyOrRat_sumScalar]
  have hf :
      List.filter (fun a : Payment => inWindow sd ed a.timestamp && a.slug == link.slug)
          db.payments =
        List.filter (fun p : Payment => (p.slug == link.slug) && inWindow sd ed p.timestamp)
          db.payments :=
    List.filter_congr (fun p _ => by rw [Bool.and_comm])
  rw [hf]

theorem mem_insertByCreatedDesc {a l : VideoLink} {xs : List VideoLink} :
    a ∈ insertByCreatedDesc l xs ↔ a = l ∨ a ∈ xs := by
  induction xs with
  | nil => simp [insertByCreatedDesc]
  | cons x xs ih =>
      by_cases h : l.created_at ≤ x.created_at
      · simp only [insertByCreatedDesc, if_pos h, List.mem_cons, ih]
        tauto
      · simp only [insertByCreatedDesc, if_neg h, List.mem_cons]

theorem mem_sortByCreatedDesc {a : VideoLink} {xs : List VideoLink} :
    a ∈ sortByCreatedDesc xs ↔ a ∈ xs := by
  induction xs with
  | nil => simp [sortByCreatedDesc]
  | cons x xs ih =>
      simp only [sortByCreatedDesc, mem_insertByCreatedDesc, List.mem_cons, ih]

theorem linkStats_mem_getAllLinks {db : DB} {sd ed : Option Date} {link : VideoLink}
    (h : link ∈ db.links) :
    linkStats db sd ed link ∈ (getAllLinks db sd ed).links := by
  simp only [getAllLinks, List.mem_map]
  exact ⟨link, mem_sortByCreatedDesc.mpr h, rfl⟩


/-! ### Lemmas on the deep view -/

/-- Snapshot views before the estimate fallback. -/
def snapshotViews (db : DB) (slug : String) (s e : DateTime) : Nat :=
  match analyticsFind db slug s e with
  | none => 0
  | some va => va.views

/-- Structural characterisation of a successful `deepViewCore` run: the slug
resolved to some link and the output is the assembled record. -/
theorem deepViewCore_ok {db : DB} {slug : String} {s e : DateTime} {out : DeepViewOut}
    (hout : deepViewCore db slug s e = Except.ok out) :
    ∃ link, db.links.find? (fun l => l.slug == slug) = some link ∧
      out =
        { title := link.title
          slug := link.slug
          destination := link.destination_url
          created_at := link.created_at
          views :=
            if snapshotViews db slug s e = 0 then (clicksRowsDV db slug s e).length * 2
            else snapshotViews db slug s e
          clicks := (clicksRowsDV db slug s e).length
          clicks_data := clicksHistogram (clicksRowsDV db slug s e)
          calls := mkCallsOut (callsRowsDV db slug s e)
          deals :=
            { closed := (dealsRowsDV db slug s e).length
              revenue := ((dealsRowsDV db slug s e).map (fun p => p.amount)).sum }
          video_data :=
            match analyticsFind db slug s e with
            | none => none
            | some va => some (mkVideoData db slug s e va) } := by
  unfold deepViewCore at hout
  cases hfind : db.links.find? (fun l => l.slug == slug) with
  | none =>
      rw [hfind] at hout
      exact absurd hout (by simp)
  | some link =>
      rw [hfind] at hout
      refine ⟨link, rfl, ?_⟩
      injection hout with h
      rw [← h]
      rfl

/-- A `deepViewCore` run fails only with 404, and only when the slug does
not resolve. -/
theorem deepViewCore_error {db : DB} {slug : String} {s e : DateTime} {err : HTTPError}
    (hout : deepViewCore db slug s e = Except.error err) :
    db.links.find? (fun l => l.slug == slug) = none ∧ err = ⟨404, "Link not found"⟩ := by
  unfold deepViewCore at hout
  cases hfind : db.links.find? (fun l => l.slug == slug) with
  | none =>
      rw [hfind] at hout
      injection hout with h
      exact ⟨rfl, h.symm⟩
  | some link =>
      rw [hfind] at hout
      exact absurd hout (by simp)

/-- A resolving slug always yields a successful `deepViewCore` run. -/
theorem deepViewCore_isOk {db : DB} {slug : String} {s e : DateTime} {link : VideoLink}
    (h : db.links.find? (fun l => l.slug == slug) = some link) :
    ∃ out, deepViewCore db slug s e = Except.ok out := by
  cases hres : deepViewCore db slug s e with
  | ok out => exact ⟨out, rfl⟩
  | error err =>
      obtain ⟨hnone, -⟩ := deepViewCore_error hres
      rw [h] at hnone
      exact absurd hnone (by simp)

/-- Every call row is classified into exactly one of the seven status
buckets: the seven per-status counts partition the row count. -/
theorem countP_status_partition (l : List Call) :
    l.countP (fun c => c.status == CallStatus.booked) +
        l.countP (fun c => c.status == CallStatus.pending) +
        l.countP (fun c => c.status == CallStatus.confirmed) +
        l.countP (fun c => c.status == CallStatus.completed) +
        l.countP (fun c => c.status == CallStatus.cancelled) +
        l.countP (fun c => c.status == CallStatus.no_show) +
        l.countP (fun c => c.status == CallStatus.rescheduled) =
      l.length := by
  induction l with
  | nil => rfl
  | cons c l ih =>
      simp only [List.countP_cons, List.length_cons]
      cases hc : c.status <;> simp [hc] <;> omega


/-! ### Example stores used by witnesses and counterexamples -/

/-- Example store with no links at all. -/
def exDBEmpty : DB := { links := [], clicks := [], calls := [], payments := [], analytics := [] }

/-- Example link whose stored `utm_source` is set, overriding the `youtube`
default in the redirect rewrite. -/
def exLinkNewsletter : VideoLink :=
  { id := 1, slug := "demo", title := "Demo video",
    destination_url :=
      { scheme := "https", netloc := "example.com", path := "/page", params := "",
        query := [("ref", "abc")], fragment := "" },
    utm_source := some "newsletter", utm_medium := none, utm_campaign := none,
    created_at := 0 }

/-- Store holding only `exLinkNewsletter`. -/
def exDBNewsletter : DB :=
  { links := [exLinkNewsletter], clicks := [], calls := [], payments := [], analytics := [] }

/-- Example link with no stored utm attributes (defaults apply). -/
def exLinkPlain : VideoLink :=
  { id := 2, slug := "demo", title := "Demo video",
    destination_url :=
      { scheme := "https", netloc := "example.com", path := "/page", params := "",
        query := [("ref", "abc")], fragment := "" },
    utm_source := none, utm_medium := none, utm_campaign := none,
    created_at := 10 }

/-- Store holding only `exLinkPlain`. -/
def exDBPlain : DB :=
  { links := [exLinkPlain], clicks := [], calls := [], payments := [], analytics := [] }

/-- Example link for aggregation witnesses. -/
def exLinkA : VideoLink :=
  { id := 3, slug := "launch", title := "Launch video",
    destination_url :=
      { scheme := "https", netloc := "example.com", path := "/", params := "",
        query := [], fragment := "" },
    utm_source := none, utm_medium := none, utm_campaign := none,
    created_at := 100 }

/-- Store with one link, one click, two calls and one payment. -/
def exDBFull : DB :=
  { links := [exLinkA]
    clicks := [{ slug := "launch", timestamp := 1000, ip_address := "198.51.100.1",
                 referrer := none }]
    calls := [{ id := 1, slug := "launch", email := "a@example.com",
                status := CallStatus.booked, timestamp := 2000 },
              { id := 2, slug := "launch", email := "b@example.com",
                status := CallStatus.cancelled, timestamp := 2500 }]
    payments := [{ id := 1, slug := "launch", email := "a@example.com", amount := 1500,
                   currency := "USD", timestamp := 3000 }]
    analytics := [] }

/-! ### C2 -/

/-- C2: redirecting a slug with no matching VideoLink returns the 404
NotFound error and persists no Click row: the click log (indeed the whole
store) is unchanged on the error path. -/
theorem redirect_unknown_slug (db : DB) (now : DateTime) (ip : String)
    (ref : Option String) (slug : String)
    (h : db.links.find? (fun l => l.slug == slug) = none) :
    redirectLink db now ip ref slug =
      (db, Except.error ⟨404, "Link with slug " ++ slug ++ " not found"⟩) := by
  unfold redirectLink
  rw [h]

/-- Witness for C2 at a concrete store and slug. -/
theorem redirect_unknown_slug_witness :
    redirectLink exDBEmpty 0 "203.0.113.5" none "does-not-exist" =
      (exDBEmpty,
        Except.error ⟨404, "Link with slug " ++ "does-not-exist" ++ " not found"⟩) :=
  redirect_unknown_slug exDBEmpty 0 "203.0.113.5" none "does-not-exist" rfl

/-! ### C3 -/

/-- C3 counterexample: a resolving link whose stored `utm_source` is
`newsletter` is rewritten with `utm_source=newsletter`, not the fixed
`youtube` the claim asserts. -/
theorem redirect_fixed_source_counterexample :
    ¬ (∀ db' out, redirectLink exDBNewsletter 0 "203.0.113.5" none "demo" =
          (db', Except.ok out) →
        ("utm_source", "youtube") ∈ out.url.query) := by
  intro h
  have hmem := h _ _ rfl
  revert hmem
  decide

/-- C3 (amended): redirecting a resolving slug appends exactly one Click row
stamped with the request client address and the server clock, and returns a
307 redirect to the destination URL whose query has `utm_source` /
`utm_medium` overwritten with the per-link values when present and non-empty
(defaulting to `youtube` / `video`), `utm_content` overwritten with the
slug, pre-existing non-reserved parameters with non-blank values preserved,
and `utm_campaign` set only when the per-link campaign is present and
non-empty. -/
theorem redirect_known_slug (db : DB) (now : DateTime) (ip : String) (ref : Option String)
    (slug : String) (link : VideoLink)
    (h : db.links.find? (fun l => l.slug == slug) = some link) :
    ∃ out : RedirectOut,
      redirectLink db now ip ref slug =
        ({ db with clicks := db.clicks ++
            [{ slug := slug, timestamp := now, ip_address := ip, referrer := ref }] },
          Except.ok out) ∧
      out.status = 307 ∧
      out.url.scheme = link.destination_url.scheme ∧
      out.url.netloc = link.destination_url.netloc ∧
      out.url.path = link.destination_url.path ∧
      out.url.params = link.destination_url.params ∧
      out.url.fragment = link.destination_url.fragment ∧
      ∀ kv : String × String,
        kv ∈ out.url.query ↔
          ((kv ∈ link.destination_url.query ∧ kv.2 ≠ "" ∧ kv.1 ≠ "utm_source" ∧
              kv.1 ≠ "utm_medium" ∧ kv.1 ≠ "utm_content" ∧
              (pyStrOpt link.utm_campaign = none ∨ kv.1 ≠ "utm_campaign")) ∨
            kv = ("utm_source", pyOrStr link.utm_source "youtube") ∨
            kv = ("utm_medium", pyOrStr link.utm_medium "video") ∨
            kv = ("utm_content", slug) ∨
            (∃ c, pyStrOpt link.utm_campaign = some c ∧ kv = ("utm_campaign", c))) := by
  refine ⟨{ status := 307,
            url := { link.destination_url with
              query := rewriteQuery link.destination_url.query slug
                (pyOrStr link.utm_source "youtube") (pyOrStr link.utm_medium "video")
                (pyStrOpt link.utm_campaign) } }, ?_, rfl, rfl, rfl, rfl, rfl, rfl, ?_⟩
  · unfold redirectLink
    rw [h]
  · intro kv
    exact mem_rewriteQuery

/-- Witness for C3 (amended) at a concrete store, clock and request. -/
theorem redirect_known_slug_witness :
    ∃ out : RedirectOut,
      redirectLink exDBPlain 50 "203.0.113.7" none "demo" =
        ({ exDBPlain with clicks := exDBPlain.clicks ++
            [{ slug := "demo", timestamp := 50, ip_address := "203.0.113.7",
               referrer := none }] },
          Except.ok out) ∧
      out.status = 307 ∧
      out.url.scheme = exLinkPlain.destination_url.scheme ∧
      out.url.netloc = exLinkPlain.destination_url.netloc ∧
      out.url.path = exLinkPlain.destination_url.path ∧
      out.url.params = exLinkPlain.destination_url.params ∧
      out.url.fragment = exLinkPlain.destination_url.fragment ∧
      ∀ kv : String × String,
        kv ∈ out.url.query ↔
          ((kv ∈ exLinkPlain.destination_url.query ∧ kv.2 ≠ "" ∧ kv.1 ≠ "utm_source" ∧
              kv.1 ≠ "utm_medium" ∧ kv.1 ≠ "utm_content" ∧
              (pyStrOpt exLinkPlain.utm_campaign = none ∨ kv.1 ≠ "utm_campaign")) ∨
            kv = ("utm_source", pyOrStr exLinkPlain.utm_source "youtube") ∨
            kv = ("utm_medium", pyOrStr exLinkPlain.utm_medium "video") ∨
            kv = ("utm_content", "demo") ∨
            (∃ c, pyStrOpt exLinkPlain.utm_campaign = some c ∧
              kv = ("utm_campaign", c))) :=
  redirect_known_slug exDBPlain 50 "203.0.113.7" none "demo" exLinkPlain rfl

/-! ### C5 -/

/-- C5: for every link in the store and every window, the funnel aggregation
lists that link with clicks equal to the exact number of matching Click
rows, booked_calls equal to the exact number of matching Call rows with
status booked, deals_closed equal to the exact number of matching Payment
rows, and revenue equal to the exact sum of those rows' amounts. -/
theorem funnel_aggregation_exact (db : DB) (sd ed : Option Date) (link : VideoLink)
    (h : link ∈ db.links) :
    linkStats db sd ed link ∈ (getAllLinks db sd ed).links ∧
    (linkStats db sd ed link).clicks =
      db.clicks.countP (fun c => (c.slug == link.slug) && inWindow sd ed c.timestamp) ∧
    (linkStats db sd ed link).booked_calls =
      db.calls.countP (fun c =>
        ((c.slug == link.slug) && (c.status == CallStatus.booked)) &&
          inWindow sd ed c.timestamp) ∧
    (linkStats db sd ed link).deals_closed =
      db.payments.countP (fun p => (p.slug == link.slug) && inWindow sd ed p.timestamp) ∧
    (linkStats db sd ed link).revenue =
      ((db.payments.filter
          (fun p => (p.slug == link.slug) && inWindow sd ed p.timestamp)).map
        (fun p => p.amount)).sum :=
  ⟨linkStats_mem_getAllLinks h, linkStats_clicks db sd ed link,
    linkStats_booked_calls db sd ed link, linkStats_deals db sd ed link,
    linkStats_revenue db sd ed link⟩

/-- Witness for C5 at a concrete store with one click, two calls (one
booked) and one payment. -/
theorem funnel_aggregation_exact_witness :
    exLinkA ∈ exDBFull.links ∧
    (linkStats exDBFull none none exLinkA ∈ (getAllLinks exDBFull none none).links ∧
    (linkStats exDBFull none none exLinkA).clicks =
      exDBFull.clicks.countP
        (fun c => (c.slug == exLinkA.slug) && inWindow none none c.timestamp) ∧
    (linkStats exDBFull none none exLinkA).booked_calls =
      exDBFull.calls.countP (fun c =>
        ((c.slug == exLinkA.slug) && (c.status == CallStatus.booked)) &&
          inWindow none none c.timestamp) ∧
    (linkStats exDBFull none none exLinkA).deals_closed =
      exDBFull.payments.countP
        (fun p => (p.slug == exLinkA.slug) && inWindow none none p.timestamp) ∧
    (linkStats exDBFull none none exLinkA).revenue =
      ((exDBFull.payments.filter
          (fun p => (p.slug == exLinkA.slug) && inWindow none none p.timestamp)).map
        (fun p => p.amount)).sum) :=
  ⟨by decide, funnel_aggregation_exact exDBFull none none exLinkA (by decide)⟩

/-! ### C6 -/

/-- C6: for every link and window with no matching Payment row, the funnel
aggregation reports revenue exactly 0 (a number, never null); and the deep
view aggregation never errors when the slug resolves, regardless of missing
optional data (no snapshot, no payments). -/
theorem revenue_defaults_to_zero (db : DB) (sd ed : Option Date) (link : VideoLink)
    (h : db.payments.filter
        (fun p => (p.slug == link.slug) && inWindow sd ed p.timestamp) = []) :
    (linkStats db sd ed link).revenue = 0 ∧
    ∀ slug s e lnk, db.links.find? (fun l => l.slug == slug) = some lnk →
      ∃ out, deepViewCore db slug s e = Except.ok out := by
  constructor
  · rw [linkStats_revenue, h]
    rfl
  · intro slug s e lnk hl
    exact deepViewCore_isOk hl

/-- Witness for C6: a store whose payment table is empty. -/
theorem revenue_defaults_to_zero_witness :
    exDBPlain.payments.filter
        (fun p => (p.slug == exLinkPlain.slug) && inWindow none none p.timestamp) = [] ∧
    ((linkStats exDBPlain none none exLinkPlain).revenue = 0 ∧
    ∀ slug s e lnk, exDBPlain.links.find? (fun l => l.slug == slug) = some lnk →
      ∃ out, deepViewCore exDBPlain slug s e = Except.ok out) :=
  ⟨rfl, revenue_defaults_to_zero exDBPlain none none exLinkPlain rfl⟩


/-! ### C1 -/

/-- Store with one link and one click at noon of day 1. -/
def exDBNoon : DB :=
  { links := [exLinkPlain]
    clicks := [{ slug := "demo", timestamp := 129600, ip_address := "198.51.100.2",
                 referrer := none }]
    calls := [], payments := [], analytics := [] }

/-- Concrete stand-in for `datetime.fromisoformat`: parses exactly the
epoch day-1 date string. -/
def parseJan2 : String → Option DateTime :=
  fun str => if str = "1970-01-02" then some (dayStart 1) else none

/-- C1 counterexample: with end date day 1, the deep view reports 0 clicks
for a store whose only click is at noon of day 1, although that timestamp
is strictly below midnight of day 2 — so the deep view does not use the
half-open bound `timestamp < D + 1 day` the claim asserts for it. -/
theorem end_date_deep_view_counterexample :
    ¬ (∀ out, getDeepView parseJan2 0 exDBNoon "demo" none (some "1970-01-02") =
          Except.ok out →
        out.clicks = (exDBNoon.clicks.filter (fun c => (c.slug == "demo") &&
          decide (c.timestamp < dayStart (1 + 1)))).length) := by
  intro h
  have hc := h _ rfl
  revert hc
  decide

/-- C1 (amended): with end date D, `get_all_links` counts exactly the rows
with `timestamp < midnight of D+1` (the end date is inclusive of its full
calendar day), while the deep view, whose parsed end datetime is midnight
of D, counts exactly the rows with `timestamp <= midnight of D`, excluding
the remainder of day D. -/
theorem end_date_window_bounds (db : DB) (sd : Option Date) (D : Date) (link : VideoLink) :
    ((linkStats db sd (some D) link).clicks =
        db.clicks.countP (fun c => (c.slug == link.slug) &&
          (inStartW sd c.timestamp && decide (c.timestamp < dayStart (D + 1))))) ∧
    ((linkStats db sd (some D) link).booked_calls =
        db.calls.countP (fun c =>
          ((c.slug == link.slug) && (c.status == CallStatus.booked)) &&
            (inStartW sd c.timestamp && decide (c.timestamp < dayStart (D + 1))))) ∧
    ((linkStats db sd (some D) link).deals_closed =
        db.payments.countP (fun p => (p.slug == link.slug) &&
          (inStartW sd p.timestamp && decide (p.timestamp < dayStart (D + 1))))) ∧
    (∀ slug s out, deepViewCore db slug s (dayStart D) = Except.ok out →
      out.clicks = db.clicks.countP (fun c => (c.slug == slug) &&
          decide (s ≤ c.timestamp) && decide (c.timestamp ≤ dayStart D)) ∧
      out.calls.list.length = db.calls.countP (fun c => (c.slug == slug) &&
          decide (s ≤ c.timestamp) && decide (c.timestamp ≤ dayStart D)) ∧
      out.deals.closed = db.payments.countP (fun p => (p.slug == slug) &&
          decide (s ≤ p.timestamp) && decide (p.timestamp ≤ dayStart D))) := by
  refine ⟨linkStats_clicks db sd (some D) link, linkStats_booked_calls db sd (some D) link,
    linkStats_deals db sd (some D) link, ?_⟩
  intro slug s out hok
  obtain ⟨lnk, hfind, rfl⟩ := deepViewCore_ok hok
  refine ⟨?_, ?_, ?_⟩
  · rw [List.countP_eq_length_filter]
    rfl
  · show ((callsRowsDV db slug s (dayStart D)).map _).length = _
    rw [List.length_map, List.countP_eq_length_filter]
    rfl
  · rw [List.countP_eq_length_filter]
    rfl

/-- Witness for C1 (amended) at a concrete store and end date. -/
theorem end_date_window_bounds_witness :
    ((linkStats exDBFull none (some 1) exLinkA).clicks =
        exDBFull.clicks.countP (fun c => (c.slug == exLinkA.slug) &&
          (inStartW none c.timestamp && decide (c.timestamp < dayStart (1 + 1))))) ∧
    (∃ out, deepViewCore exDBFull "launch" 0 (dayStart 1) = Except.ok out ∧
      out.clicks = exDBFull.clicks.countP (fun c => (c.slug == "launch") &&
        decide ((0 : Int) ≤ c.timestamp) && decide (c.timestamp ≤ dayStart 1))) := by
  constructor
  · exact (end_date_window_bounds exDBFull none 1 exLinkA).1
  · obtain ⟨out, hout⟩ := @deepViewCore_isOk exDBFull "launch" 0 (dayStart 1) exLinkA rfl
    exact ⟨out, hout,
      ((end_date_window_bounds exDBFull none 1 exLinkA).2.2.2 "launch" 0 out hout).1⟩

/-! ### C7 -/

/-- Store realising the call distribution booked 2, confirmed 1, no_show 1. -/
def exDBCalls : DB :=
  { links := [exLinkA]
    clicks := []
    calls := [{ id := 11, slug := "launch", email := "a@example.com",
                status := CallStatus.booked, timestamp := 10 },
              { id := 12, slug := "launch", email := "b@example.com",
                status := CallStatus.booked, timestamp := 20 },
              { id := 13, slug := "launch", email := "c@example.com",
                status := CallStatus.confirmed, timestamp := 30 },
              { id := 14, slug := "launch", email := "d@example.com",
                status := CallStatus.no_show, timestamp := 40 }]
    payments := [], analytics := [] }

/-- C7: the deep view classifies each in-window Call row into exactly one of
the seven status buckets, reports the exact per-bucket counts, the seven
counts sum to the total number of call rows in the window, and the calls
block is independent of the click and payment content of the store. -/
theorem deep_view_call_buckets (db : DB) (slug : String) (s e : DateTime)
    (out : DeepViewOut) (h : deepViewCore db slug s e = Except.ok out) :
    out.calls.booked =
        (callsRowsDV db slug s e).countP (fun c => c.status == CallStatus.booked) ∧
    out.calls.pending =
        (callsRowsDV db slug s e).countP (fun c => c.status == CallStatus.pending) ∧
    out.calls.confirmed =
        (callsRowsDV db slug s e).countP (fun c => c.status == CallStatus.confirmed) ∧
    out.calls.completed =
        (callsRowsDV db slug s e).countP (fun c => c.status == CallStatus.completed) ∧
    out.calls.cancelled =
        (callsRowsDV db slug s e).countP (fun c => c.status == CallStatus.cancelled) ∧
    out.calls.no_show =
        (callsRowsDV db slug s e).countP (fun c => c.status == CallStatus.no_show) ∧
    out.calls.rescheduled =
        (callsRowsDV db slug s e).countP (fun c => c.status == CallStatus.rescheduled) ∧
    out.calls.list.length = (callsRowsDV db slug s e).length ∧
    out.calls.booked + out.calls.pending + out.calls.confirmed + out.calls.completed +
        out.calls.cancelled + out.calls.no_show + out.calls.rescheduled =
      out.calls.list.length ∧
    (∀ db2 out2, db2.calls = db.calls → db2.links = db.links →
      deepViewCore db2 slug s e = Except.ok out2 → out2.calls = out.calls) := by
  obtain ⟨lnk, hfind, rfl⟩ := deepViewCore_ok h
  refine ⟨rfl, rfl, rfl, rfl, rfl, rfl, rfl, ?_, ?_, ?_⟩
  · show ((callsRowsDV db slug s e).map _).length = _
    rw [List.length_map]
  · show _ = ((callsRowsDV db slug s e).map _).length
    rw [List.length_map]
    exact countP_status_partition (callsRowsDV db slug s e)
  · intro db2 out2 hcalls hlinks hok2
    obtain ⟨lnk2, hfind2, rfl⟩ := deepViewCore_ok hok2
    show mkCallsOut (callsRowsDV db2 slug s e) = mkCallsOut (callsRowsDV db slug s e)
    unfold callsRowsDV
    rw [hcalls]

/-- Witness for C7: the booked 2 / confirmed 1 / no_show 1 store yields
exactly those bucket counts and a call total of 4. -/
theorem deep_view_call_buckets_witness :
    ∃ out, deepViewCore exDBCalls "launch" 0 100 = Except.ok out ∧
      out.calls.booked = 2 ∧ out.calls.confirmed = 1 ∧ out.calls.no_show = 1 ∧
      out.calls.pending = 0 ∧ out.calls.completed = 0 ∧ out.calls.cancelled = 0 ∧
      out.calls.rescheduled = 0 ∧
      out.calls.booked + out.calls.pending + out.calls.confirmed + out.calls.completed +
          out.calls.cancelled + out.calls.no_show + out.calls.rescheduled = 4 := by
  obtain ⟨out, hout⟩ := @deepViewCore_isOk exDBCalls "launch" 0 100 exLinkA rfl
  obtain ⟨h1, h2, h3, h4, h5, h6, h7, hlen, hsum, -⟩ :=
    deep_view_call_buckets exDBCalls "launch" 0 100 out hout
  refine ⟨out, hout, ?_, ?_, ?_, ?_, ?_, ?_, ?_, ?_⟩
  · rw [h1]; decide
  · rw [h3]; decide
  · rw [h6]; decide
  · rw [h2]; decide
  · rw [h4]; decide
  · rw [h5]; decide
  · rw [h7]; decide
  · rw [hsum, hlen]; decide


/-! ### C8 -/

/-- C8: when no VideoAnalytics snapshot matches the slug and window, the
deep view reports views equal to 2 times the click total and a null
video_data block; and video_data is null exactly when no snapshot matched,
so an estimated views value is distinguishable in the output from one
backed by a snapshot. -/
theorem deep_view_views_estimate (db : DB) (slug : String) (s e : DateTime)
    (out : DeepViewOut) (h : deepViewCore db slug s e = Except.ok out) :
    (analyticsFind db slug s e = none →
      out.views = out.clicks * 2 ∧ out.video_data = none) ∧
    (out.video_data = none ↔ analyticsFind db slug s e = none) := by
  obtain ⟨lnk, hfind, rfl⟩ := deepViewCore_ok h
  cases hva : analyticsFind db slug s e with
  | none =>
      refine ⟨fun _ => ⟨?_, rfl⟩, by simp⟩
      show (if snapshotViews db slug s e = 0 then _ else _) = _
      rw [if_pos (by simp [snapshotViews, hva])]
  | some va =>
      refine ⟨fun hcontra => absurd hcontra (by simp), by simp⟩

/-- Witness for C8 at a store with no analytics rows. -/
theorem deep_view_views_estimate_witness :
    ∃ out, deepViewCore exDBFull "launch" 0 5000 = Except.ok out ∧
      out.views = out.clicks * 2 ∧ out.video_data = none := by
  obtain ⟨out, hout⟩ := @deepViewCore_isOk exDBFull "launch" 0 5000 exLinkA rfl
  have hb := deep_view_views_estimate exDBFull "launch" 0 5000 out hout
  exact ⟨out, hout, hb.1 rfl⟩

/-! ### C9 -/

/-- Analytics snapshot used by the C9 stores. -/
def exVA : VideoAnalytics :=
  { video_id := "abc123", slug := "launch", views := 100, likes := 4, comments := 2,
    engagement_rate := 1 / 10, avg_view_duration := 30, last_updated := 10 }

/-- Store with a snapshot and a call plus a payment exactly on the end
bound of the window used by the counterexample. -/
def exDBVideo : DB :=
  { links := [exLinkA]
    clicks := []
    calls := [{ id := 5, slug := "launch", email := "c@example.com",
                status := CallStatus.booked, timestamp := 86400 }]
    payments := [{ id := 6, slug := "launch", email := "c@example.com", amount := 500,
                   currency := "USD", timestamp := 86400 }]
    analytics := [exVA] }

/-- Store with a snapshot and a call plus a payment strictly inside the
window. -/
def exDBVideoIn : DB :=
  { links := [exLinkA]
    clicks := []
    calls := [{ id := 7, slug := "launch", email := "c@example.com",
                status := CallStatus.booked, timestamp := 400 }]
    payments := [{ id := 8, slug := "launch", email := "c@example.com", amount := 500,
                   currency := "USD", timestamp := 400 }]
    analytics := [exVA] }

/-- C9 counterexample: with a snapshot present and a call and a payment at
exactly the end datetime of the window, the per-video leads and revenue
(computed end-exclusively) disagree with the report totals (computed
end-inclusively): video_data reports 0 leads and 0 revenue while the same
report counts 1 call and 500 revenue. -/
theorem video_data_window_counterexample :
    ¬ (∀ out vd, deepViewCore exDBVideo "launch" 0 86400 = Except.ok out →
        out.video_data = some vd →
        vd.revenue = out.deals.revenue ∧ vd.leads_generated = out.calls.list.length) := by
  intro h
  have hc := (h _ _ rfl rfl).2
  revert hc
  decide

/-- C9 (amended): when a snapshot matches, the merged video view is present,
its watch time is int(avg_view_duration * views), and its leads and revenue
are recomputed over the half-open window [start, end) — end-exclusive,
unlike the rest of the deep view — so they coincide with the report's total
call count and deals revenue exactly when no matching row sits on the end
bound. -/
theorem video_data_window (db : DB) (slug : String) (s e : DateTime)
    (out : DeepViewOut) (va : VideoAnalytics)
    (h : deepViewCore db slug s e = Except.ok out)
    (hva : analyticsFind db slug s e = some va) :
    out.video_data = some (mkVideoData db slug s e va) ∧
    (mkVideoData db slug s e va).watch_time_seconds =
      pyInt (va.avg_view_duration * (va.views : ℚ)) ∧
    (mkVideoData db slug s e va).views = va.views ∧
    (mkVideoData db slug s e va).leads_generated =
      (db.calls.filter (fun c => (c.slug == slug) && decide (s ≤ c.timestamp) &&
        decide (c.timestamp < e))).length ∧
    ((∀ c ∈ db.calls, ¬(c.slug = slug ∧ c.timestamp = e)) →
      (mkVideoData db slug s e va).leads_generated = out.calls.list.length) ∧
    ((∀ p ∈ db.payments, ¬(p.slug = slug ∧ p.timestamp = e)) →
      (mkVideoData db slug s e va).revenue = out.deals.revenue) := by
  obtain ⟨lnk, hfind, rfl⟩ := deepViewCore_ok h
  refine ⟨?_, rfl, rfl, rfl, ?_, ?_⟩
  · show (match analyticsFind db slug s e with
          | none => (none : Option VideoData)
          | some va => some (mkVideoData db slug s e va)) = some (mkVideoData db slug s e va)
    rw [hva]
  · intro hnone
    show (db.calls.filter _).length = ((callsRowsDV db slug s e).map _).length
    rw [List.length_map]
    unfold callsRowsDV
    apply congrArg List.length
    apply List.filter_congr
    intro c hc
    by_cases hs : c.slug = slug
    · have hne : c.timestamp ≠ e := fun he => (hnone c hc) ⟨hs, he⟩
      have hde : decide (c.timestamp < e) = decide (c.timestamp ≤ e) :=
        decide_eq_decide.mpr ⟨le_of_lt, fun hle => lt_of_le_of_ne hle hne⟩
      rw [hde]
    · have hb : (c.slug == slug) = false := beq_eq_false_iff_ne.mpr hs
      rw [hb]
      simp
  · intro hnone
    show pyOrRat (sumScalar _) 0 = ((dealsRowsDV db slug s e).map _).sum
    rw [pyOrRat_sumScalar]
    have hfe :
        db.payments.filter (fun p => (p.slug == slug) && decide (s ≤ p.timestamp) &&
            decide (p.timestamp < e)) =
          db.payments.filter (fun p => (p.slug == slug) && decide (s ≤ p.timestamp) &&
            decide (p.timestamp ≤ e)) := by
      apply List.filter_congr
      intro q hq
      by_cases hs : q.slug = slug
      · have hne : q.timestamp ≠ e := fun he => (hnone q hq) ⟨hs, he⟩
        have hde : decide (q.timestamp < e) = decide (q.timestamp ≤ e) :=
          decide_eq_decide.mpr ⟨le_of_lt, fun hle => lt_of_le_of_ne hle hne⟩
        rw [hde]
      · have hb : (q.slug == slug) = false := beq_eq_false_iff_ne.mpr hs
        rw [hb]
        simp
    rw [hfe]
    rfl

/-- Witness for C9 (amended): with the boundary clear, the video block
leads and revenue agree with the report totals. -/
theorem video_data_window_witness :
    ∃ out, deepViewCore exDBVideoIn "launch" 0 86400 = Except.ok out ∧
      out.video_data = some (mkVideoData exDBVideoIn "launch" 0 86400 exVA) ∧
      (mkVideoData exDBVideoIn "launch" 0 86400 exVA).leads_generated =
        out.calls.list.length ∧
      (mkVideoData exDBVideoIn "launch" 0 86400 exVA).revenue = out.deals.revenue := by
  obtain ⟨out, hout⟩ := @deepViewCore_isOk exDBVideoIn "launch" 0 86400 exLinkA rfl
  have hb := video_data_window exDBVideoIn "launch" 0 86400 out exVA hout rfl
  exact ⟨out, hout, hb.1, hb.2.2.2.2.1 (by decide), hb.2.2.2.2.2 (by decide)⟩


/-! ### C10 -/

/-- C10: in the deep view, date validation happens before slug resolution:
an unparsable end_date yields the 400 error regardless of the slug; an
unparsable start_date (with a well-formed or absent end_date) likewise;
and a 404 is only ever produced when both provided dates parse and the
slug does not resolve. -/
theorem deep_view_dates_before_slug (parse : String → Option DateTime) (now : DateTime)
    (db : DB) (slug : String) (sOpt eOpt : Option String) :
    (∀ str, eOpt = some str → parse str = none →
      getDeepView parse now db slug sOpt eOpt =
        Except.error ⟨400, "Invalid end_date format. Use ISO format (YYYY-MM-DD)"⟩) ∧
    (∀ str, sOpt = some str → parse str = none →
      (∀ str2, eOpt = some str2 → parse str2 ≠ none) →
      getDeepView parse now db slug sOpt eOpt =
        Except.error ⟨400, "Invalid start_date format. Use ISO format (YYYY-MM-DD)"⟩) ∧
    (∀ err, getDeepView parse now db slug sOpt eOpt = Except.error err → err.code = 404 →
      (∀ str, eOpt = some str → ∃ d, parse str = some d) ∧
      (∀ str, sOpt = some str → ∃ d, parse str = some d) ∧
      db.links.find? (fun l => l.slug == slug) = none) := by
  refine ⟨?_, ?_, ?_⟩
  · rintro str rfl hp
    simp [getDeepView, hp]
  · rintro str rfl hp hend
    cases eOpt with
    | none => simp [getDeepView, hp]
    | some str2 =>
        cases hp2 : parse str2 with
        | none => exact absurd hp2 (hend str2 rfl)
        | some d2 => simp [getDeepView, hp2, hp]
  · intro err herr hcode
    cases eOpt with
    | none =>
        cases sOpt with
        | none =>
            simp only [getDeepView] at herr
            obtain ⟨hfind, rfl⟩ := deepViewCore_error herr
            refine ⟨?_, ?_, hfind⟩
            · intro str h
              cases h
            · intro str h
              cases h
        | some str1 =>
            cases hp1 : parse str1 with
            | none =>
                simp only [getDeepView, hp1] at herr
                injection herr with h
                rw [← h] at hcode
                exact absurd hcode (by decide)
            | some d1 =>
                simp only [getDeepView, hp1] at herr
                obtain ⟨hfind, rfl⟩ := deepViewCore_error herr
                refine ⟨?_, ?_, hfind⟩
                · intro str h
                  cases h
                · intro str h
                  injection h with h
                  subst h
                  exact ⟨d1, hp1⟩
    | some str2 =>
        cases hp2 : parse str2 with
        | none =>
            simp only [getDeepView, hp2] at herr
            injection herr with h
            rw [← h] at hcode
            exact absurd hcode (by decide)
        | some d2 =>
            cases sOpt with
            | none =>
                simp only [getDeepView, hp2] at herr
                obtain ⟨hfind, rfl⟩ := deepViewCore_error herr
                refine ⟨?_, ?_, hfind⟩
                · intro str h
                  injection h with h
                  subst h
                  exact ⟨d2, hp2⟩
                · intro str h
                  cases h
            | some str1 =>
                cases hp1 : parse str1 with
                | none =>
                    simp only [getDeepView, hp2, hp1] at herr
                    injection herr with h
                    rw [← h] at hcode
                    exact absurd hcode (by decide)
                | some d1 =>
                    simp only [getDeepView, hp2, hp1] at herr
                    obtain ⟨hfind, rfl⟩ := deepViewCore_error herr
                    refine ⟨?_, ?_, hfind⟩
                    · intro str h
                      injection h with h
                      subst h
                      exact ⟨d2, hp2⟩
                    · intro str h
                      injection h with h
                      subst h
                      exact ⟨d1, hp1⟩

/-- Witness for C10: an unparsable end_date string yields the 400 error even
though the slug resolves in the store. -/
theorem deep_view_dates_before_slug_witness :
    getDeepView (fun _ => none) 0 exDBPlain "demo" none (some "not-a-date") =
      Except.error ⟨400, "Invalid end_date format. Use ISO format (YYYY-MM-DD)"⟩ :=
  (deep_view_dates_before_slug (fun _ => none) 0 exDBPlain "demo" none
      (some "not-a-date")).1 "not-a-date" rfl rfl

end Insyte
